import Mathlib

set_option maxRecDepth 16384
set_option maxHeartbeats 1600000

/-!
Shallow embedding of the CanvasAI AI service (`src/ai/main.py`), a FastAPI
application with five POST handlers (`/ai/layout`, `/ai/trace`, `/ai/palette`,
`/ai/inpaint`, `/ai/search`) and two GET handlers.  Python integers are
modelled as `Int`, Python floats appearing only as literal constants and
literal arithmetic are modelled as `ℚ`, byte strings as `List Nat` with
values below 256, and the PIL image library as an abstract codec parameter.
-/

namespace CanvasAI

/-! ## Model of Python `base64.b64decode` / `b64encode`

`base64.b64decode(s)` (with the default `validate=False`) discards characters
outside the base64 alphabet, stops consuming data at the first `=` padding
character, rejects inputs whose number of data characters is `1 (mod 4)`, and
rejects inputs with leftover data characters (2 or 3 mod 4) that carry no
padding at all.  Leftover 6-bit groups contribute their high-order bits. -/

/-- Value of a character in the standard base64 alphabet, `none` if the
character is not in the alphabet. -/
def b64Index (c : Char) : Option Nat :=
  if 'A' ≤ c ∧ c ≤ 'Z' then some (c.toNat - 65)
  else if 'a' ≤ c ∧ c ≤ 'z' then some (c.toNat - 97 + 26)
  else if '0' ≤ c ∧ c ≤ '9' then some (c.toNat - 48 + 52)
  else if c = '+' then some 62
  else if c = '/' then some 63
  else none

/-- Reassemble a list of 6-bit values into 8-bit bytes; a trailing group of
two or three values yields one or two bytes (their high-order bits). -/
def b64DecodeVals : List Nat → List Nat
  | a :: b :: c :: d :: rest =>
      (a * 4 + b / 16) :: ((b % 16) * 16 + c / 4) :: ((c % 4) * 64 + d) ::
        b64DecodeVals rest
  | [a, b] => [a * 4 + b / 16]
  | [a, b, c] => [a * 4 + b / 16, (b % 16) * 16 + c / 4]
  | _ => []

/-- Scanner state of `binascii.a2b_base64`: bytes emitted so far, the 6-bit
values of the current (incomplete) quad, the count of `=` seen against the
current quad, and whether a completed padding sequence ended the data. -/
structure A2bState where
  out : List Nat
  quad : List Nat
  pads : Nat
  done : Bool
  deriving DecidableEq, Repr

/-- One step of the `binascii.a2b_base64` scanner (non-strict mode): after a
terminating padding sequence everything is ignored; a `=` with at least two
data characters in the current quad counts toward completing it (one `=`
completes a 3-character quad, two complete a 2-character quad); characters
outside the alphabet are skipped; a data character resets the padding count
and emits a byte group when it completes a quad. -/
def a2bStep (st : A2bState) (c : Char) : A2bState :=
  if st.done then st
  else if c = '=' then
    if 2 ≤ st.quad.length ∧ 4 ≤ st.quad.length + (st.pads + 1) then
      { st with out := st.out ++ b64DecodeVals st.quad, quad := [], done := true }
    else if 2 ≤ st.quad.length then { st with pads := st.pads + 1 }
    else st
  else
    match b64Index c with
    | none => st
    | some v =>
        let quad := st.quad ++ [v]
        if quad.length = 4 then
          { st with out := st.out ++ b64DecodeVals quad, quad := [], pads := 0 }
        else { st with quad := quad, pads := 0 }

/-- Model of Python `base64.b64decode` with `validate=False`
(`binascii.a2b_base64` in non-strict mode): `none` models the
`binascii.Error` raised when the input ends with a partial quad that no
padding sequence closed. -/
def pyB64Decode (s : String) : Option (List Nat) :=
  let st := s.data.foldl a2bStep ⟨[], [], 0, false⟩
  if st.quad.length = 0 then some st.out else none

/-- Character at a given index of the base64 alphabet (defined for n < 64). -/
def b64Char (n : Nat) : Char :=
  if n < 26 then Char.ofNat (65 + n)
  else if n < 52 then Char.ofNat (97 + (n - 26))
  else if n < 62 then Char.ofNat (48 + (n - 52))
  else if n = 62 then '+' else '/'

/-- Split a byte list into 6-bit base64 characters with `=` padding, the
core of Python `base64.b64encode`. -/
def b64EncodeList : List Nat → List Char
  | a :: b :: c :: rest =>
      b64Char (a / 4) :: b64Char ((a % 4) * 16 + b / 16) ::
        b64Char ((b % 16) * 4 + c / 64) :: b64Char (c % 64) :: b64EncodeList rest
  | [a, b] => [b64Char (a / 4), b64Char ((a % 4) * 16 + b / 16),
               b64Char ((b % 16) * 4), '=']
  | [a] => [b64Char (a / 4), b64Char ((a % 4) * 16), '=', '=']
  | [] => []

/-- Model of Python `base64.b64encode(...).decode()` on a byte list. -/
def b64Encode (bytes : List Nat) : String :=
  String.mk (b64EncodeList bytes)

/-! ## Model of Python `str.split` and the handlers' data-URI stripping -/

/-- Model of Python `s.split(',')` on the character list of `s`:
`"a,b".split(',') = ["a","b"]`, `",".split(',') = ["",""]`,
`"".split(',') = [""]`. -/
def pySplit : List Char → List (List Char)
  | [] => [[]]
  | c :: rest =>
      if c = ',' then [] :: pySplit rest
      else
        match pySplit rest with
        | g :: gs => (c :: g) :: gs
        | [] => [[c]]

/-- The payload-extraction step shared by `trace_image` and `inpaint_image`:
`request.image_data.split(',')[1] if ',' in request.image_data else
request.image_data` (when a comma is present, Python's `split` always has an
element at index 1, so indexing with default is exact). -/
def extractB64Payload (s : String) : String :=
  if s.data.contains ',' then String.mk ((pySplit s.data).getD 1 []) else s

/-- Spec-side description ("the entire remainder of the string after the
first comma"), used to compare the spec's wording with the code's
`split(',')[1]`. -/
def afterFirstComma (s : String) : String :=
  String.mk ((s.data.dropWhile (fun c => c ≠ ',')).drop 1)

/-- The string segment strictly between the first comma and the second comma
(or the end of the string when there is no second comma). -/
def betweenFirstAndSecondComma (s : String) : String :=
  String.mk (((s.data.dropWhile (fun c => c ≠ ',')).drop 1).takeWhile
    (fun c => c ≠ ','))

/-- Model of Python `str.strip()` with no argument: remove leading and
trailing whitespace. -/
def pyStrip (s : String) : String :=
  String.mk
    (((s.data.dropWhile Char.isWhitespace).reverse.dropWhile
      Char.isWhitespace).reverse)

/-! ## The PIL image library, abstractly

`trace_image` and `inpaint_image` use `PIL.Image.open` on decoded bytes and
`image.save(buffer, format='PNG')`.  PIL is an external library, so the
handlers are parameterized by an abstract codec: `open'` models `Image.open`
(returning `none` when PIL raises), `savePNG` models re-encoding as PNG. -/

/-- An in-memory image: pixel dimensions plus abstract payload. -/
structure Img where
  width : Nat
  height : Nat
  pixels : List Nat
  deriving DecidableEq, Repr

/-- Abstract interface of the PIL operations the handlers use. -/
structure ImageCodec where
  open' : List Nat → Option Img
  savePNG : Img → List Nat

/-- A codec whose PNG byte stream stores width and height in unary (bytes
`1`, terminated by `0`) followed by the pixel payload.  It satisfies the PNG
round-trip and byte-boundedness assumptions and serves as concrete witness
instantiation. -/
def unaryCodec : ImageCodec where
  open' bs :=
    let w := (bs.takeWhile (fun b => b ≠ 0)).length
    let rest := (bs.dropWhile (fun b => b ≠ 0)).drop 1
    let h := (rest.takeWhile (fun b => b ≠ 0)).length
    some ⟨w, h, (rest.dropWhile (fun b => b ≠ 0)).drop 1⟩
  savePNG i :=
    List.replicate i.width 1 ++ 0 :: List.replicate i.height 1 ++ 0 ::
      i.pixels.map (fun p => p % 256)

/-! ## Request/response records (`pydantic` models of `main.py`) -/

structure GenerateLayoutRequest where
  prompt : String
  width : Int := 800
  height : Int := 600
  style : Option String := some "modern"
  deriving DecidableEq, Repr

structure Position where
  x : Int
  y : Int
  deriving DecidableEq, Repr

structure TextStyle where
  fontSize : Nat
  fontFamily : String
  color : String
  deriving DecidableEq, Repr

structure RectSize where
  width : Nat
  height : Nat
  deriving DecidableEq, Repr

structure RectStyle where
  fill : String
  stroke : String
  deriving DecidableEq, Repr

/-- One entry of the mock scene graph's `elements` list. -/
inductive SceneElement
  | text (id : String) (content : String) (position : Position)
      (style : TextStyle)
  | rectangle (id : String) (position : Position) (size : RectSize)
      (style : RectStyle)
  deriving DecidableEq, Repr

/-- The `id` field present on every element. -/
def SceneElement.id : SceneElement → String
  | .text i _ _ _ => i
  | .rectangle i _ _ _ => i

structure Artboard where
  id : String
  width : Int
  height : Int
  backgroundColor : String
  deriving DecidableEq, Repr

structure SceneGraph where
  artboard : Artboard
  elements : List SceneElement
  deriving DecidableEq, Repr

structure GenerateLayoutResponse where
  scene_graph : SceneGraph
  preview_image : Option String := none
  deriving DecidableEq, Repr

structure TraceImageRequest where
  image_data : String
  deriving DecidableEq, Repr

structure TraceImageResponse where
  svg_content : String
  confidence : ℚ
  deriving DecidableEq, Repr

structure GeneratePaletteRequest where
  image_data : Option String := none
  base_color : Option String := none
  count : Int := 5
  deriving DecidableEq, Repr

structure GeneratePaletteResponse where
  colors : List String
  harmony_type : String
  deriving DecidableEq, Repr

structure InpaintRequest where
  image_data : String
  mask_data : String
  prompt : String
  deriving DecidableEq, Repr

structure InpaintResponse where
  image_data : String
  deriving DecidableEq, Repr

structure SearchResult where
  id : String
  url : String
  title : String
  tags : List String
  relevance : ℚ
  deriving DecidableEq, Repr

structure SearchResponse where
  results : List SearchResult
  total : Nat
  deriving DecidableEq, Repr

/-- `fastapi.HTTPException` as raised by every handler's `except` clause. -/
structure HTTPError where
  status_code : Nat
  detail : String
  deriving DecidableEq, Repr

/-- Each handler body runs inside `try ... except Exception as e: raise
HTTPException(status_code=500, detail=str(e))`; this wraps a body's outcome
accordingly. -/
def runHandler {α : Type} (body : Except String α) : Except HTTPError α :=
  match body with
  | .ok a => .ok a
  | .error msg => .error ⟨500, msg⟩

/-! ## Handlers -/

/-- Body of `generate_layout` (`POST /ai/layout`): a fixed two-element scene
graph parameterized by the request's prompt, width and height. -/
def generate_layout_body (request : GenerateLayoutRequest) :
    Except String GenerateLayoutResponse :=
  let scene_graph : SceneGraph :=
    { artboard :=
        { id := "artboard-1"
          width := request.width
          height := request.height
          backgroundColor := "#FFFFFF" }
      elements :=
        [ .text "text-1" ("Generated from: " ++ request.prompt) ⟨50, 50⟩
            ⟨24, "Inter", "#333333"⟩
        , .rectangle "rect-1" ⟨50, 100⟩ ⟨200, 100⟩ ⟨"#3B82F6", "none"⟩ ] }
  .ok { scene_graph := scene_graph, preview_image := none }

/-- `POST /ai/layout`. -/
def generate_layout (request : GenerateLayoutRequest) :
    Except HTTPError GenerateLayoutResponse :=
  runHandler (generate_layout_body request)

/-- The part of `trace_image`'s SVG f-string that survives `.strip()`, built
from the opened image's dimensions exactly as the Python f-string does
(`image.width-20` is Python integer subtraction, `image.width//2` is floor
division on the nonnegative dimensions).  The literals are grouped to expose
the `width="w"` and `height="h"` attributes of the `<svg>` tag. -/
def svgCore (w h : Nat) : String :=
  "<svg " ++ ("width=\"" ++ toString w ++ "\"") ++ " " ++
  ("height=\"" ++ toString h ++ "\"") ++
  " xmlns=\"http://www.w3.org/2000/svg\">\n            <rect x=\"10\" y=\"10\" width=\"" ++
  toString ((w : Int) - 20) ++ "\" height=\"" ++ toString ((h : Int) - 20) ++
  "\" \n                  fill=\"none\" stroke=\"#000000\" stroke-width=\"2\"/>\n            <text x=\"" ++
  toString (w / 2) ++ "\" y=\"" ++ toString (h / 2) ++
  "\" \n                  text-anchor=\"middle\" font-family=\"Arial\" font-size=\"16\">\n                Traced Image\n            </text>\n        " ++
  "</svg>"

/-- The SVG template of `trace_image` before `.strip()`: the triple-quoted
f-string opens with a newline plus indentation and closes the same way. -/
def svgTemplate (w h : Nat) : String :=
  "\n        " ++ svgCore w h ++ "\n        "

/-- Body of `trace_image` (`POST /ai/trace`): base64-decode the payload
(after data-URI stripping), open it as an image, and emit the SVG template
sized to the image, with constant confidence 0.85. -/
def trace_image_body (codec : ImageCodec) (request : TraceImageRequest) :
    Except String TraceImageResponse :=
  match pyB64Decode (extractB64Payload request.image_data) with
  | none => .error "Invalid base64-encoded string"
  | some image_data =>
    match codec.open' image_data with
    | none => .error "cannot identify image file"
    | some image =>
      .ok { svg_content := pyStrip (svgTemplate image.width image.height)
            confidence := 17 / 20 }

/-- `POST /ai/trace`. -/
def trace_image (codec : ImageCodec) (request : TraceImageRequest) :
    Except HTTPError TraceImageResponse :=
  runHandler (trace_image_body codec request)

/-- The fixed color list of `generate_palette`. -/
def paletteColors : List String :=
  ["#3B82F6", "#1E40AF", "#93C5FD", "#F59E0B", "#6B7280"]

/-- Python list slicing `xs[:k]`: a nonnegative bound takes the first `k`
elements (clamped to the length), a negative bound counts from the end. -/
def pySliceTo {α : Type} (k : Int) (xs : List α) : List α :=
  if k < 0 then xs.take (xs.length - (-k).toNat) else xs.take k.toNat

/-- Body of `generate_palette` (`POST /ai/palette`): the fixed color list
sliced to `count`, harmony type always `"complementary"`.  The computed
`base_color` is never used, exactly as in the source. -/
def generate_palette_body (request : GeneratePaletteRequest) :
    Except String GeneratePaletteResponse :=
  let _base_color : String :=
    match request.base_color with
    | some c => c
    | none => "#3B82F6"
  .ok { colors := pySliceTo request.count paletteColors
        harmony_type := "complementary" }

/-- `POST /ai/palette`. -/
def generate_palette (request : GeneratePaletteRequest) :
    Except HTTPError GeneratePaletteResponse :=
  runHandler (generate_palette_body request)

/-- Body of `inpaint_image` (`POST /ai/inpaint`): base64-decode image and
mask payloads, open the image, re-encode it as PNG and return it as a
data-URI string.  The decoded mask bytes and the prompt are never used. -/
def inpaint_image_body (codec : ImageCodec) (request : InpaintRequest) :
    Except String InpaintResponse :=
  match pyB64Decode (extractB64Payload request.image_data) with
  | none => .error "Invalid base64-encoded string"
  | some image_data =>
    match pyB64Decode (extractB64Payload request.mask_data) with
    | none => .error "Invalid base64-encoded string"
    | some _mask_data =>
      match codec.open' image_data with
      | none => .error "cannot identify image file"
      | some image =>
        .ok { image_data :=
          "data:image/png;base64," ++ b64Encode (codec.savePNG image) }

/-- `POST /ai/inpaint`. -/
def inpaint_image (codec : ImageCodec) (request : InpaintRequest) :
    Except HTTPError InpaintResponse :=
  runHandler (inpaint_image_body codec request)

/-- Body of `search_assets` (`POST /ai/search`): `min(limit, 5)` synthetic
results (`range` of a negative bound is empty), `total = len(results)`.
The float `0.9 - (i * 0.1)` is carried exactly in `ℚ`. -/
def search_assets_body (_query : String) (limit : Int) :
    Except String SearchResponse :=
  let results : List SearchResult :=
    (List.range (min limit 5).toNat).map fun (i : Nat) =>
      { id := "asset-" ++ toString i
        url := "https://picsum.photos/200/200?random=" ++ toString i
        title := "Sample Asset " ++ toString i
        tags := ["sample", "image"]
        relevance := (9 : ℚ) / 10 - (i : ℚ) * (1 / 10) }
  .ok { results := results, total := results.length }

/-- `POST /ai/search`. -/
def search_assets (query : String) (limit : Int := 10) :
    Except HTTPError SearchResponse :=
  runHandler (search_assets_body query limit)

/-! ## Helper lemmas: `pySplit` and comma handling -/

theorem pySplit_head (cs : List Char) :
    ∃ gs, pySplit cs = cs.takeWhile (fun c => c ≠ ',') :: gs := by
  induction cs with
  | nil => exact ⟨[], rfl⟩
  | cons c rest ih =>
    by_cases hc : c = ','
    · subst hc
      exact ⟨pySplit rest, by simp [pySplit]⟩
    · obtain ⟨gs, hgs⟩ := ih
      exact ⟨gs, by simp [pySplit, hc, hgs]⟩

theorem pySplit_getD_one (cs : List Char) (h : ',' ∈ cs) :
    (pySplit cs).getD 1 [] =
      ((cs.dropWhile (fun c => c ≠ ',')).drop 1).takeWhile (fun c => c ≠ ',') := by
  induction cs with
  | nil => cases h
  | cons c rest ih =>
    by_cases hc : c = ','
    · subst hc
      obtain ⟨gs, hgs⟩ := pySplit_head rest
      simp [pySplit, hgs]
    · have hr : ',' ∈ rest := by
        rcases List.mem_cons.mp h with h' | h'
        · exact absurd h'.symm hc
        · exact h'
      obtain ⟨gs, hgs⟩ := pySplit_head rest
      have hlhs : (pySplit (c :: rest)).getD 1 [] = (pySplit rest).getD 1 [] := by
        simp [pySplit, hc, hgs]
      rw [hlhs, ih hr]
      have hstep : (c :: rest).dropWhile (fun c => c ≠ ',') =
          rest.dropWhile (fun c => c ≠ ',') := by
        simp [List.dropWhile_cons, hc]
      rw [hstep]

theorem extract_eq_between (s : String) (h : s.data.contains ',' = true) :
    extractB64Payload s = betweenFirstAndSecondComma s := by
  unfold extractB64Payload betweenFirstAndSecondComma
  rw [if_pos h]
  have hmem : ',' ∈ s.data := by simpa using h
  rw [pySplit_getD_one s.data hmem]

theorem extract_no_comma (s : String) (h : s.data.contains ',' = false) :
    extractB64Payload s = s := by
  unfold extractB64Payload
  rw [if_neg (by simpa using h)]

theorem dropWhile_ne_comma_append (p m : List Char) (hp : ',' ∉ p) :
    (p ++ ',' :: m).dropWhile (fun c => c ≠ ',') = ',' :: m := by
  induction p with
  | nil => simp
  | cons a l ih =>
    have ha : a ≠ ',' := fun e => hp (by simp [e])
    have hl : ',' ∉ l := fun hm => hp (List.mem_cons_of_mem a hm)
    rw [List.cons_append, List.dropWhile_cons_of_pos (by simp [ha]), ih hl]

theorem takeWhile_ne_comma (m : List Char) (hm : ',' ∉ m) :
    m.takeWhile (fun c => c ≠ ',') = m := by
  rw [List.takeWhile_eq_self_iff]
  intro x hx
  have hx' : x ≠ ',' := fun e => hm (e ▸ hx)
  simp [hx']

theorem extract_dataURI (p e : String) (hp : ',' ∉ p.data) (he : ',' ∉ e.data) :
    extractB64Payload (p ++ "," ++ e) = e := by
  have hdata : (p ++ "," ++ e).data = p.data ++ ',' :: e.data := by
    simp [String.data_append]
  have hmem : (p ++ "," ++ e).data.contains ',' = true := by
    rw [hdata]; simp
  rw [extract_eq_between _ hmem]
  unfold betweenFirstAndSecondComma
  rw [hdata, dropWhile_ne_comma_append _ _ hp]
  simp only [List.drop_succ_cons, List.drop_zero]
  rw [takeWhile_ne_comma _ he]

/-! ## Helper lemmas: base64 encode/decode round trip -/

theorem b64Index_b64Char : ∀ n, n < 64 → b64Index (b64Char n) = some n := by
  decide

theorem b64Char_ne_pad : ∀ n, n < 64 → b64Char n ≠ '=' := by decide

theorem b64Char_ne_comma_lt : ∀ n, n < 64 → b64Char n ≠ ',' := by decide

theorem b64Char_ne_comma (n : Nat) : b64Char n ≠ ',' := by
  by_cases h : n < 64
  · exact b64Char_ne_comma_lt n h
  · unfold b64Char
    have h1 : ¬ n < 26 := by omega
    have h2 : ¬ n < 52 := by omega
    have h3 : ¬ n < 62 := by omega
    have h4 : ¬ n = 62 := by omega
    rw [if_neg h1, if_neg h2, if_neg h3, if_neg h4]
    decide

theorem a2bStep_data (out quad : List Nat) (pads k : Nat) (hk : k < 64)
    (hq : quad.length < 3) :
    a2bStep ⟨out, quad, pads, false⟩ (b64Char k) = ⟨out, quad ++ [k], 0, false⟩ := by
  have h4 : ¬ (quad ++ [k]).length = 4 := by simp; omega
  simp [a2bStep, b64Char_ne_pad k hk, b64Index_b64Char k hk, h4]
  omega

theorem a2bStep_data_complete (out quad : List Nat) (pads k : Nat) (hk : k < 64)
    (hq : quad.length = 3) :
    a2bStep ⟨out, quad, pads, false⟩ (b64Char k) =
      ⟨out ++ b64DecodeVals (quad ++ [k]), [], 0, false⟩ := by
  have h4 : (quad ++ [k]).length = 4 := by simp [hq]
  simp [a2bStep, b64Char_ne_pad k hk, b64Index_b64Char k hk, h4]

theorem a2bStep_pad_incomplete (out quad : List Nat) (pads : Nat)
    (h2 : 2 ≤ quad.length) (h4 : quad.length + (pads + 1) < 4) :
    a2bStep ⟨out, quad, pads, false⟩ '=' = ⟨out, quad, pads + 1, false⟩ := by
  have hcond : ¬ (2 ≤ quad.length ∧ 4 ≤ quad.length + (pads + 1)) := by omega
  simp [a2bStep, hcond, h2]
  omega

theorem a2bStep_pad_done (out quad : List Nat) (pads : Nat)
    (h2 : 2 ≤ quad.length) (h4 : 4 ≤ quad.length + (pads + 1)) :
    a2bStep ⟨out, quad, pads, false⟩ '=' =
      ⟨out ++ b64DecodeVals quad, [], pads, true⟩ := by
  have hcond : 2 ≤ quad.length ∧ 4 ≤ quad.length + (pads + 1) := ⟨h2, h4⟩
  simp [a2bStep, hcond]

/-- Processing the base64 encoding of a byte list from a fresh quad state
appends exactly those bytes to the output, ending with an empty quad. -/
theorem foldl_a2bStep_encode :
    ∀ (l : List Nat), (∀ b ∈ l, b < 256) → ∀ out : List Nat,
      ∃ pads dn, (b64EncodeList l).foldl a2bStep ⟨out, [], 0, false⟩ =
        ⟨out ++ l, [], pads, dn⟩
  | [] => fun _ out => ⟨0, false, by simp [b64EncodeList]⟩
  | [a] => fun h out => by
      have ha : a < 256 := h a (by simp)
      refine ⟨1, true, ?_⟩
      rw [show b64EncodeList [a] =
        [b64Char (a / 4), b64Char ((a % 4) * 16), '=', '='] from rfl]
      rw [List.foldl_cons, a2bStep_data out [] 0 (a / 4) (by omega) (by simp)]
      rw [List.foldl_cons]
      rw [show ([] : List Nat) ++ [a / 4] = [a / 4] from rfl]
      rw [a2bStep_data out [a / 4] 0 ((a % 4) * 16) (by omega) (by simp)]
      rw [List.foldl_cons]
      rw [a2bStep_pad_incomplete out ([a / 4] ++ [(a % 4) * 16]) 0 (by simp)
        (by simp)]
      rw [List.foldl_cons]
      rw [a2bStep_pad_done out ([a / 4] ++ [(a % 4) * 16]) 1 (by simp) (by simp)]
      rw [List.foldl_nil]
      have hv : b64DecodeVals ([a / 4] ++ [(a % 4) * 16]) = [a] := by
        show b64DecodeVals [a / 4, (a % 4) * 16] = [a]
        unfold b64DecodeVals
        have : a / 4 * 4 + (a % 4) * 16 / 16 = a := by omega
        rw [this]
      rw [hv]
  | [a, b] => fun h out => by
      have ha : a < 256 := h a (by simp)
      have hb : b < 256 := h b (by simp)
      refine ⟨0, true, ?_⟩
      rw [show b64EncodeList [a, b] =
        [b64Char (a / 4), b64Char ((a % 4) * 16 + b / 16),
         b64Char ((b % 16) * 4), '='] from rfl]
      rw [List.foldl_cons, a2bStep_data out [] 0 (a / 4) (by omega) (by simp)]
      rw [List.foldl_cons]
      rw [show ([] : List Nat) ++ [a / 4] = [a / 4] from rfl]
      rw [a2bStep_data out [a / 4] 0 ((a % 4) * 16 + b / 16) (by omega) (by simp)]
      rw [List.foldl_cons]
      rw [a2bStep_data out ([a / 4] ++ [(a % 4) * 16 + b / 16]) 0 ((b % 16) * 4)
        (by omega) (by simp)]
      rw [List.foldl_cons]
      rw [a2bStep_pad_done out
        (([a / 4] ++ [(a % 4) * 16 + b / 16]) ++ [(b % 16) * 4]) 0 (by simp)
        (by simp)]
      rw [List.foldl_nil]
      have hv : b64DecodeVals
          (([a / 4] ++ [(a % 4) * 16 + b / 16]) ++ [(b % 16) * 4]) = [a, b] := by
        show b64DecodeVals [a / 4, (a % 4) * 16 + b / 16, (b % 16) * 4] = [a, b]
        unfold b64DecodeVals
        have e1 : a / 4 * 4 + ((a % 4) * 16 + b / 16) / 16 = a := by omega
        have e2 : ((a % 4) * 16 + b / 16) % 16 * 16 + (b % 16) * 4 / 4 = b := by
          omega
        rw [e1, e2]
      rw [hv]
  | a :: b :: c :: rest => fun h out => by
      have ha : a < 256 := h a (by simp)
      have hb : b < 256 := h b (by simp)
      have hc : c < 256 := h c (by simp)
      obtain ⟨pads, dn, hrec⟩ := foldl_a2bStep_encode rest
        (fun x hx => h x (by simp [hx])) (out ++ [a, b, c])
      refine ⟨pads, dn, ?_⟩
      rw [show b64EncodeList (a :: b :: c :: rest) =
        b64Char (a / 4) :: b64Char ((a % 4) * 16 + b / 16) ::
          b64Char ((b % 16) * 4 + c / 64) :: b64Char (c % 64) ::
          b64EncodeList rest from rfl]
      rw [List.foldl_cons, a2bStep_data out [] 0 (a / 4) (by omega) (by simp)]
      rw [List.foldl_cons]
      rw [show ([] : List Nat) ++ [a / 4] = [a / 4] from rfl]
      rw [a2bStep_data out [a / 4] 0 ((a % 4) * 16 + b / 16) (by omega) (by simp)]
      rw [List.foldl_cons]
      rw [a2bStep_data out ([a / 4] ++ [(a % 4) * 16 + b / 16]) 0
        ((b % 16) * 4 + c / 64) (by omega) (by simp)]
      rw [List.foldl_cons]
      rw [a2bStep_data_complete out
        (([a / 4] ++ [(a % 4) * 16 + b / 16]) ++ [(b % 16) * 4 + c / 64]) 0
        (c % 64) (by omega) (by simp)]
      have hv : b64DecodeVals
          ((([a / 4] ++ [(a % 4) * 16 + b / 16]) ++ [(b % 16) * 4 + c / 64]) ++
            [c % 64]) = [a, b, c] := by
        show b64DecodeVals
          [a / 4, (a % 4) * 16 + b / 16, (b % 16) * 4 + c / 64, c % 64] =
          [a, b, c]
        unfold b64DecodeVals
        have e1 : a / 4 * 4 + ((a % 4) * 16 + b / 16) / 16 = a := by omega
        have e2 : ((a % 4) * 16 + b / 16) % 16 * 16 +
            ((b % 16) * 4 + c / 64) / 4 = b := by omega
        have e3 : ((b % 16) * 4 + c / 64) % 4 * 64 + c % 64 = c := by omega
        rw [e1, e2, e3]
        rfl
      rw [hv]
      rw [show out ++ [a, b, c] ++ rest = out ++ (a :: b :: c :: rest) by simp]
        at hrec
      exact hrec

/-- Round trip: decoding the base64 encoding of a byte list recovers it. -/
theorem pyB64Decode_b64Encode (l : List Nat) (h : ∀ b ∈ l, b < 256) :
    pyB64Decode (b64Encode l) = some l := by
  obtain ⟨pads, dn, hfold⟩ := foldl_a2bStep_encode l h []
  unfold pyB64Decode b64Encode
  rw [show (String.mk (b64EncodeList l)).data = b64EncodeList l from rfl]
  rw [hfold]
  simp

/-- The base64 alphabet (and the pad character) never contains a comma, so a
data-URI built from an encoded payload has exactly one comma. -/
theorem b64EncodeList_ne_comma : ∀ l : List Nat, ',' ∉ b64EncodeList l
  | [] => by simp [b64EncodeList]
  | [a] => by
      intro hm
      rw [show b64EncodeList [a] =
        [b64Char (a / 4), b64Char ((a % 4) * 16), '=', '='] from rfl] at hm
      simp only [List.mem_cons, List.not_mem_nil, or_false] at hm
      rcases hm with h | h | h | h
      · exact b64Char_ne_comma _ h.symm
      · exact b64Char_ne_comma _ h.symm
      · exact (by decide : (',' : Char) ≠ '=') h
      · exact (by decide : (',' : Char) ≠ '=') h
  | [a, b] => by
      intro hm
      rw [show b64EncodeList [a, b] =
        [b64Char (a / 4), b64Char ((a % 4) * 16 + b / 16),
         b64Char ((b % 16) * 4), '='] from rfl] at hm
      simp only [List.mem_cons, List.not_mem_nil, or_false] at hm
      rcases hm with h | h | h | h
      · exact b64Char_ne_comma _ h.symm
      · exact b64Char_ne_comma _ h.symm
      · exact b64Char_ne_comma _ h.symm
      · exact (by decide : (',' : Char) ≠ '=') h
  | a :: b :: c :: rest => by
      intro hm
      rw [show b64EncodeList (a :: b :: c :: rest) =
        b64Char (a / 4) :: b64Char ((a % 4) * 16 + b / 16) ::
          b64Char ((b % 16) * 4 + c / 64) :: b64Char (c % 64) ::
          b64EncodeList rest from rfl] at hm
      simp only [List.mem_cons] at hm
      rcases hm with h | h | h | h | h
      · exact b64Char_ne_comma _ h.symm
      · exact b64Char_ne_comma _ h.symm
      · exact b64Char_ne_comma _ h.symm
      · exact b64Char_ne_comma _ h.symm
      · exact b64EncodeList_ne_comma rest h

/-! ## Helper lemmas: the unary codec -/

theorem takeWhile_unary (n : Nat) (l : List Nat) :
    (List.replicate n 1 ++ 0 :: l).takeWhile (fun b => b ≠ 0) =
      List.replicate n 1 := by
  induction n with
  | zero => simp
  | succ k ih =>
    rw [List.replicate_succ, List.cons_append,
      List.takeWhile_cons_of_pos (by decide), ih]

theorem dropWhile_unary (n : Nat) (l : List Nat) :
    (List.replicate n 1 ++ 0 :: l).dropWhile (fun b => b ≠ 0) = 0 :: l := by
  induction n with
  | zero => simp
  | succ k ih =>
    rw [List.replicate_succ, List.cons_append,
      List.dropWhile_cons_of_pos (by decide), ih]

/-- The unary codec's PNG round trip preserves the pixel dimensions. -/
theorem unaryCodec_dims (i : Img) :
    ∃ j, unaryCodec.open' (unaryCodec.savePNG i) = some j ∧
      j.width = i.width ∧ j.height = i.height := by
  refine ⟨⟨i.width, i.height, i.pixels.map (fun p => p % 256)⟩, ?_, rfl, rfl⟩
  have h1 : unaryCodec.savePNG i =
      List.replicate i.width 1 ++ 0 :: (List.replicate i.height 1 ++ 0 ::
        i.pixels.map (fun p => p % 256)) := by simp [unaryCodec]
  show Option.some _ = _
  rw [h1, takeWhile_unary, dropWhile_unary]
  simp only [List.drop_succ_cons, List.drop_zero, List.length_replicate]
  rw [takeWhile_unary, dropWhile_unary]
  simp

/-- Every byte the unary codec emits is below 256. -/
theorem unaryCodec_bytes (i : Img) : ∀ b ∈ unaryCodec.savePNG i, b < 256 := by
  intro b hb
  have hb' : b ∈ List.replicate i.width 1 ++ 0 :: (List.replicate i.height 1 ++
      0 :: i.pixels.map (fun p => p % 256)) := by
    have h1 : unaryCodec.savePNG i =
        List.replicate i.width 1 ++ 0 :: (List.replicate i.height 1 ++ 0 ::
          i.pixels.map (fun p => p % 256)) := by simp [unaryCodec]
    rw [h1] at hb
    exact hb
  rcases List.mem_append.mp hb' with h | h
  · have := List.eq_of_mem_replicate h; omega
  · rcases List.mem_cons.mp h with rfl | h
    · omega
    · rcases List.mem_append.mp h with h | h
      · have := List.eq_of_mem_replicate h; omega
      · rcases List.mem_cons.mp h with rfl | h
        · omega
        · obtain ⟨p, hp, hpe⟩ := List.mem_map.mp h
          omega

/-! ## Helper lemmas: `pyStrip` on the SVG template -/

theorem pyStrip_wrap (ws1 ws2 core : String)
    (h1 : ws1.data.dropWhile Char.isWhitespace = [])
    (h2 : ws2.data.reverse.dropWhile Char.isWhitespace = [])
    (h3 : core.data.dropWhile Char.isWhitespace = core.data)
    (h4 : core.data.reverse.dropWhile Char.isWhitespace = core.data.reverse)
    (h5 : core.data ≠ []) :
    pyStrip (ws1 ++ core ++ ws2) = core := by
  unfold pyStrip
  rw [String.data_append, String.data_append, List.append_assoc,
    List.dropWhile_append, h1]
  simp only [List.isEmpty_nil, if_true]
  rw [List.dropWhile_append, h3]
  have hne : ¬ core.data.isEmpty = true := by
    simpa [List.isEmpty_iff] using h5
  rw [if_neg hne]
  rw [List.reverse_append, List.dropWhile_append, h2]
  simp only [List.isEmpty_nil, if_true]
  rw [h4]
  have hfin : core.data.reverse.reverse = core.data := List.reverse_reverse _
  rw [hfin]

theorem pyStrip_svgTemplate (w h : Nat) :
    pyStrip (svgTemplate w h) = svgCore w h := by
  unfold svgTemplate
  apply pyStrip_wrap
  · decide
  · decide
  · have hd : (svgCore w h).data = '<' ::
        ("svg " ++ ("width=\"" ++ toString w ++ "\"") ++ " " ++
          ("height=\"" ++ toString h ++ "\"") ++
          " xmlns=\"http://www.w3.org/2000/svg\">\n            <rect x=\"10\" y=\"10\" width=\"" ++
          toString ((w : Int) - 20) ++ "\" height=\"" ++
          toString ((h : Int) - 20) ++
          "\" \n                  fill=\"none\" stroke=\"#000000\" stroke-width=\"2\"/>\n            <text x=\"" ++
          toString (w / 2) ++ "\" y=\"" ++ toString (h / 2) ++
          "\" \n                  text-anchor=\"middle\" font-family=\"Arial\" font-size=\"16\">\n                Traced Image\n            </text>\n        " ++
          "</svg>").data := by
      simp [svgCore, String.data_append]
    rw [hd, List.dropWhile_cons_of_neg (by decide)]
  · have hsplit : (svgCore w h).data =
        ("<svg " ++ ("width=\"" ++ toString w ++ "\"") ++ " " ++
          ("height=\"" ++ toString h ++ "\"") ++
          " xmlns=\"http://www.w3.org/2000/svg\">\n            <rect x=\"10\" y=\"10\" width=\"" ++
          toString ((w : Int) - 20) ++ "\" height=\"" ++
          toString ((h : Int) - 20) ++
          "\" \n                  fill=\"none\" stroke=\"#000000\" stroke-width=\"2\"/>\n            <text x=\"" ++
          toString (w / 2) ++ "\" y=\"" ++ toString (h / 2) ++
          "\" \n                  text-anchor=\"middle\" font-family=\"Arial\" font-size=\"16\">\n                Traced Image\n            </text>\n        ").data ++
          ("</svg>" : String).data := rfl
    rw [hsplit, List.reverse_append,
      show ("</svg>" : String).data.reverse = ['>', 'g', 'v', 's', '/', '<']
        from rfl]
    simp only [List.cons_append]
    rw [List.dropWhile_cons_of_neg (by decide)]
  · have hd : (svgCore w h).data = '<' ::
        ("svg " ++ ("width=\"" ++ toString w ++ "\"") ++ " " ++
          ("height=\"" ++ toString h ++ "\"") ++
          " xmlns=\"http://www.w3.org/2000/svg\">\n            <rect x=\"10\" y=\"10\" width=\"" ++
          toString ((w : Int) - 20) ++ "\" height=\"" ++
          toString ((h : Int) - 20) ++
          "\" \n                  fill=\"none\" stroke=\"#000000\" stroke-width=\"2\"/>\n            <text x=\"" ++
          toString (w / 2) ++ "\" y=\"" ++ toString (h / 2) ++
          "\" \n                  text-anchor=\"middle\" font-family=\"Arial\" font-size=\"16\">\n                Traced Image\n            </text>\n        " ++
          "</svg>").data := by
      simp [svgCore, String.data_append]
    rw [hd]
    exact List.cons_ne_nil _ _

/-- The `width="w"` attribute is a substring of the stripped SVG. -/
theorem svgCore_width_infix (w h : Nat) :
    ("width=\"" ++ toString w ++ "\"").data <:+: (svgCore w h).data := by
  refine ⟨"<svg ".data, ?_, ?_⟩
  · exact (" " ++ ("height=\"" ++ toString h ++ "\"") ++
      " xmlns=\"http://www.w3.org/2000/svg\">\n            <rect x=\"10\" y=\"10\" width=\"" ++
      toString ((w : Int) - 20) ++ "\" height=\"" ++ toString ((h : Int) - 20) ++
      "\" \n                  fill=\"none\" stroke=\"#000000\" stroke-width=\"2\"/>\n            <text x=\"" ++
      toString (w / 2) ++ "\" y=\"" ++ toString (h / 2) ++
      "\" \n                  text-anchor=\"middle\" font-family=\"Arial\" font-size=\"16\">\n                Traced Image\n            </text>\n        " ++
      "</svg>").data
  · simp [svgCore, String.data_append]

/-- The `height="h"` attribute is a substring of the stripped SVG. -/
theorem svgCore_height_infix (w h : Nat) :
    ("height=\"" ++ toString h ++ "\"").data <:+: (svgCore w h).data := by
  refine ⟨("<svg " ++ ("width=\"" ++ toString w ++ "\"") ++ " ").data, ?_, ?_⟩
  · exact (" xmlns=\"http://www.w3.org/2000/svg\">\n            <rect x=\"10\" y=\"10\" width=\"" ++
      toString ((w : Int) - 20) ++ "\" height=\"" ++ toString ((h : Int) - 20) ++
      "\" \n                  fill=\"none\" stroke=\"#000000\" stroke-width=\"2\"/>\n            <text x=\"" ++
      toString (w / 2) ++ "\" y=\"" ++ toString (h / 2) ++
      "\" \n                  text-anchor=\"middle\" font-family=\"Arial\" font-size=\"16\">\n                Traced Image\n            </text>\n        " ++
      "</svg>").data
  · simp [svgCore, String.data_append]

/-! ## Claim theorems -/

/-- C6: for every layout request with width `W` and height `H`, the scene
graph's artboard has width `W` and height `H`, the elements list has exactly
the two entries `text-1` (a text node echoing the prompt) and `rect-1` (a
rectangle), and `preview_image` is always `none`. -/
theorem layout_scene_graph_spec (req : GenerateLayoutRequest) :
    ∃ resp, generate_layout req = Except.ok resp ∧
      resp.scene_graph.artboard.width = req.width ∧
      resp.scene_graph.artboard.height = req.height ∧
      resp.scene_graph.elements.length = 2 ∧
      resp.scene_graph.elements.map SceneElement.id = ["text-1", "rect-1"] ∧
      (∃ pos style, resp.scene_graph.elements[0]? =
        some (SceneElement.text "text-1"
          ("Generated from: " ++ req.prompt) pos style)) ∧
      (∃ pos size style, resp.scene_graph.elements[1]? =
        some (SceneElement.rectangle "rect-1" pos size style)) ∧
      resp.preview_image = none := by
  exact ⟨_, rfl, rfl, rfl, rfl, rfl, ⟨_, _, rfl⟩, ⟨_, _, _, rfl⟩, rfl⟩

/-- C7: the palette response depends only on `count` — two requests with the
same `count` but different `base_color` or `image_data` get identical
responses — and `harmony_type` is always the constant `"complementary"`. -/
theorem palette_noninterference :
    (∀ r1 r2 : GeneratePaletteRequest, r1.count = r2.count →
       generate_palette r1 = generate_palette r2) ∧
    (∀ r resp, generate_palette r = Except.ok resp →
       resp.harmony_type = "complementary") := by
  constructor
  · intro r1 r2 hc
    simp only [generate_palette, generate_palette_body, runHandler]
    rw [hc]
  · intro r resp h
    simp only [generate_palette, generate_palette_body, runHandler] at h
    cases h
    rfl

/-- Witness for C7 at two concrete requests differing in `base_color` and
`image_data` but sharing `count = 2`. -/
theorem palette_noninterference_witness :
    generate_palette ⟨some "imagedata", some "#000000", 2⟩ =
      generate_palette ⟨none, none, 2⟩ :=
  palette_noninterference.1 ⟨some "imagedata", some "#000000", 2⟩
    ⟨none, none, 2⟩ rfl

/-- C2: for `count = c ≥ 0` the palette is the fixed five-color list
truncated to its first `min(c, 5)` entries; more than 5 yields exactly the
full list. -/
theorem palette_count_nonneg (req : GeneratePaletteRequest)
    (h : 0 ≤ req.count) :
    ∃ resp, generate_palette req = Except.ok resp ∧
      resp.colors = paletteColors.take (min req.count 5).toNat ∧
      (resp.colors.length : Int) = min req.count 5 ∧
      (5 ≤ req.count → resp.colors = paletteColors) := by
  refine ⟨_, rfl, ?_, ?_, ?_⟩
  · show pySliceTo req.count paletteColors = _
    unfold pySliceTo
    rw [if_neg (by omega)]
    rcases le_or_lt req.count 5 with h5 | h5
    · rw [min_eq_left h5]
    · rw [min_eq_right h5.le]
      rw [show ((5 : Int)).toNat = 5 from rfl]
      rw [List.take_of_length_le
        (by rw [show paletteColors.length = 5 from rfl]; omega)]
      rfl
  · show ((pySliceTo req.count paletteColors).length : Int) = _
    unfold pySliceTo
    rw [if_neg (by omega), List.length_take,
      show paletteColors.length = 5 from rfl]
    omega
  · intro h5
    show pySliceTo req.count paletteColors = _
    unfold pySliceTo
    rw [if_neg (by omega)]
    exact List.take_of_length_le
      (by rw [show paletteColors.length = 5 from rfl]; omega)

/-- Witness for C2 at `count = 7`: seven requested colors yield exactly the
five fixed ones. -/
theorem palette_count_nonneg_witness :
    0 ≤ (7 : Int) ∧ ∃ resp, generate_palette ⟨none, none, 7⟩ = Except.ok resp ∧
      resp.colors = paletteColors := by
  refine ⟨by decide, ?_⟩
  obtain ⟨resp, hok, _, _, hfull⟩ :=
    palette_count_nonneg ⟨none, none, 7⟩ (by decide)
  exact ⟨resp, hok, hfull (by decide)⟩

/-- C9 (implicit): a negative `count` does not fail; Python's negative slice
bound keeps the first `max(0, 5 + c)` of the five fixed colors. -/
theorem palette_count_negative (req : GeneratePaletteRequest)
    (h : req.count < 0) :
    ∃ resp, generate_palette req = Except.ok resp ∧
      resp.colors = paletteColors.take ((5 + req.count).toNat) ∧
      resp.colors.length = (5 + req.count).toNat := by
  refine ⟨_, rfl, ?_, ?_⟩
  · show pySliceTo req.count paletteColors = _
    unfold pySliceTo
    rw [if_pos h, show paletteColors.length = 5 from rfl]
    congr 1
    omega
  · show (pySliceTo req.count paletteColors).length = _
    unfold pySliceTo
    rw [if_pos h, List.length_take, show paletteColors.length = 5 from rfl]
    omega

/-- Witness for C9 at `count = -1`: four colors come back. -/
theorem palette_count_negative_witness :
    (-1 : Int) < 0 ∧ ∃ resp, generate_palette ⟨none, none, -1⟩ = Except.ok resp ∧
      resp.colors.length = 4 := by
  refine ⟨by decide, ?_⟩
  obtain ⟨resp, hok, _, hlen⟩ := palette_count_negative ⟨none, none, -1⟩ (by decide)
  exact ⟨resp, hok, hlen⟩

/-- Counterexample to C1 as stated: at `limit = -1` the result list is empty,
so its length is `0`, not `min(-1, 5) = -1`. -/
theorem search_count_negative_cex :
    ∃ resp, search_assets "query" (-1) = Except.ok resp ∧
      ((resp.results.length : Int) ≠ min (-1) 5) := by
  exact ⟨⟨[], 0⟩, rfl, by decide⟩

/-- C1 (amended): the result count is `min(l, 5)` clamped below at `0`
(`min(l, 5)` exactly when `l ≥ 0`); the `i`-th result has the fixed
id/url/title/tags templates and relevance `0.9 - 0.1*i`, and relevance is
strictly decreasing along the list. -/
theorem search_results_spec (q : String) (l : Int) :
    ∃ resp, search_assets q l = Except.ok resp ∧
      resp.results.length = (min l 5).toNat ∧
      (0 ≤ l → (resp.results.length : Int) = min l 5) ∧
      (∀ i, (hi : i < resp.results.length) →
        resp.results[i] =
          { id := "asset-" ++ toString i
            url := "https://picsum.photos/200/200?random=" ++ toString i
            title := "Sample Asset " ++ toString i
            tags := ["sample", "image"]
            relevance := (0.9 : ℚ) - 0.1 * (i : ℚ) }) ∧
      (∀ i j, (hi : i < resp.results.length) → (hj : j < resp.results.length) →
        i < j → (resp.results[j]).relevance < (resp.results[i]).relevance) := by
  refine ⟨_, rfl, ?_, ?_, ?_, ?_⟩
  · show ((List.range (min l 5).toNat).map _).length = _
    simp
  · intro h0
    show (((List.range (min l 5).toNat).map _).length : Int) = _
    simp only [List.length_map, List.length_range]
    omega
  · intro i hi
    have harith : (9 : ℚ) / 10 - (i : ℚ) * (1 / 10) =
        (0.9 : ℚ) - 0.1 * (i : ℚ) := by
      rw [show (0.9 : ℚ) = 9 / 10 by norm_num, show (0.1 : ℚ) = 1 / 10 by norm_num]
      ring
    simp only [List.getElem_map, List.getElem_range, harith]
  · intro i j hi hj hij
    have hi' : i < (min l 5).toNat := by simpa using hi
    have hj' : j < (min l 5).toNat := by simpa using hj
    simp only [List.getElem_map, List.getElem_range]
    have hcast : (i : ℚ) < (j : ℚ) := by exact_mod_cast hij
    show (9 : ℚ) / 10 - (j : ℚ) * (1 / 10) < (9 : ℚ) / 10 - (i : ℚ) * (1 / 10)
    linarith

/-- Witness for C1's amended theorem at `q = "cats"`, `l = 3`: three results,
with the documented first element and decreasing relevance. -/
theorem search_results_spec_witness :
    0 ≤ (3 : Int) ∧
    ∃ resp, search_assets "cats" 3 = Except.ok resp ∧
      (resp.results.length : Int) = min 3 5 ∧
      (∀ i, (hi : i < resp.results.length) →
        resp.results[i] =
          { id := "asset-" ++ toString i
            url := "https://picsum.photos/200/200?random=" ++ toString i
            title := "Sample Asset " ++ toString i
            tags := ["sample", "image"]
            relevance := (0.9 : ℚ) - 0.1 * (i : ℚ) }) := by
  refine ⟨by decide, ?_⟩
  obtain ⟨resp, hok, _, hlen, helem, _⟩ := search_results_spec "cats" 3
  exact ⟨resp, hok, hlen (by decide), helem⟩

/-- C10 (implicit): `total` always equals the length of `results`, and a
negative `limit` yields an empty result list with `total = 0`. -/
theorem search_total_consistent (q : String) (l : Int) :
    ∃ resp, search_assets q l = Except.ok resp ∧
      resp.total = resp.results.length ∧
      (l < 0 → resp.results = [] ∧ resp.total = 0) := by
  refine ⟨_, rfl, rfl, ?_⟩
  intro hneg
  have hz : (min l 5).toNat = 0 := by omega
  constructor
  · show (List.range (min l 5).toNat).map _ = []
    rw [hz]
    rfl
  · show ((List.range (min l 5).toNat).map _).length = 0
    rw [hz]
    rfl

/-- Witness for C10 at `limit = -1`: total equals the (empty) result count. -/
theorem search_total_consistent_witness :
    (-1 : Int) < 0 ∧
    ∃ resp, search_assets "query string" (-1) = Except.ok resp ∧
      resp.total = resp.results.length ∧ resp.results = [] := by
  refine ⟨by decide, ?_⟩
  obtain ⟨resp, hok, htot, hneg⟩ := search_total_consistent "query string" (-1)
  exact ⟨resp, hok, htot, (hneg (by decide)).1⟩

/-- Counterexample to C4 as stated: on a payload with two commas the code
decodes only the segment between the first and second comma (`split(',')[1]`),
not the entire remainder after the first comma. -/
theorem extract_after_first_comma_cex :
    ("AAAA,BBBB,CCCC" : String).data.contains ',' = true ∧
    pyB64Decode (extractB64Payload "AAAA,BBBB,CCCC") ≠
      pyB64Decode (afterFirstComma "AAAA,BBBB,CCCC") := by
  constructor
  · decide
  · decide

/-- C4 (amended): when the payload contains a comma, the decoded bytes are
the base64 decoding of the segment between the first and second comma (the
data-URI prefix is stripped; anything after a second comma is dropped); with
no comma the whole string is decoded. -/
theorem extract_payload_spec (s : String) :
    (s.data.contains ',' = true →
      extractB64Payload s = betweenFirstAndSecondComma s ∧
      pyB64Decode (extractB64Payload s) =
        pyB64Decode (betweenFirstAndSecondComma s)) ∧
    (s.data.contains ',' = false →
      extractB64Payload s = s ∧
      pyB64Decode (extractB64Payload s) = pyB64Decode s) := by
  constructor
  · intro h
    have he := extract_eq_between s h
    exact ⟨he, by rw [he]⟩
  · intro h
    have he := extract_no_comma s h
    exact ⟨he, by rw [he]⟩

/-- Witness for C4's amended theorem on a data-URI payload. -/
theorem extract_payload_spec_witness :
    ("data:image/png;base64,QUJD" : String).data.contains ',' = true ∧
    extractB64Payload "data:image/png;base64,QUJD" =
      betweenFirstAndSecondComma "data:image/png;base64,QUJD" := by
  refine ⟨by decide, ?_⟩
  exact ((extract_payload_spec "data:image/png;base64,QUJD").1 (by decide)).1

/-- C5: when the trace payload decodes and opens as an image of size (w, h),
the stripped SVG contains the substrings `width="w"` and `height="h"` and the
confidence is the constant 0.85. -/
theorem trace_svg_dimensions (codec : ImageCodec) (req : TraceImageRequest)
    (bs : List Nat) (img : Img)
    (hdec : pyB64Decode (extractB64Payload req.image_data) = some bs)
    (hopen : codec.open' bs = some img) :
    ∃ resp, trace_image codec req = Except.ok resp ∧
      ("width=\"" ++ toString img.width ++ "\"").data <:+:
        resp.svg_content.data ∧
      ("height=\"" ++ toString img.height ++ "\"").data <:+:
        resp.svg_content.data ∧
      resp.confidence = 0.85 := by
  have hbody : trace_image_body codec req = Except.ok
      { svg_content := pyStrip (svgTemplate img.width img.height)
        confidence := 17 / 20 } := by
    unfold trace_image_body
    simp only [hdec, hopen]
  refine ⟨{ svg_content := pyStrip (svgTemplate img.width img.height)
            confidence := 17 / 20 }, ?_, ?_, ?_, ?_⟩
  · show trace_image codec req = _
    unfold trace_image runHandler
    rw [hbody]
  · show _ <:+: (pyStrip (svgTemplate img.width img.height)).data
    rw [pyStrip_svgTemplate]
    exact svgCore_width_infix img.width img.height
  · show _ <:+: (pyStrip (svgTemplate img.width img.height)).data
    rw [pyStrip_svgTemplate]
    exact svgCore_height_infix img.width img.height
  · show (17 : ℚ) / 20 = 0.85
    norm_num

/-- Witness for C5: a concrete payload decoding to a 2-wide, 1-high image. -/
theorem trace_svg_dimensions_witness :
    pyB64Decode (extractB64Payload "AQEAAQAJ") = some [1, 1, 0, 1, 0, 9] ∧
    unaryCodec.open' [1, 1, 0, 1, 0, 9] = some ⟨2, 1, [9]⟩ ∧
    ∃ resp, trace_image unaryCodec ⟨"AQEAAQAJ"⟩ = Except.ok resp ∧
      ("width=\"" ++ toString (2 : Nat) ++ "\"").data <:+:
        resp.svg_content.data ∧
      resp.confidence = 0.85 := by
  refine ⟨by decide, by decide, ?_⟩
  obtain ⟨resp, hok, hw, _, hc⟩ := trace_svg_dimensions unaryCodec ⟨"AQEAAQAJ"⟩
    [1, 1, 0, 1, 0, 9] ⟨2, 1, [9]⟩ (by decide) (by decide)
  exact ⟨resp, hok, hw, hc⟩

/-- C8: each handler either fully succeeds or fails as a whole with an HTTP
500 error whose `detail` is the body's exception message; malformed base64
and non-image bytes in trace/inpaint requests produce exactly this failure. -/
theorem handler_error_contract :
    (∀ req : GenerateLayoutRequest,
      ∃ resp, generate_layout req = Except.ok resp) ∧
    (∀ req : GeneratePaletteRequest,
      ∃ resp, generate_palette req = Except.ok resp) ∧
    (∀ (q : String) (l : Int), ∃ resp, search_assets q l = Except.ok resp) ∧
    (∀ (codec : ImageCodec) (req : TraceImageRequest),
      (∃ resp, trace_image codec req = Except.ok resp ∧
         trace_image_body codec req = Except.ok resp) ∨
      (∃ msg, trace_image codec req = Except.error ⟨500, msg⟩ ∧
         trace_image_body codec req = Except.error msg)) ∧
    (∀ (codec : ImageCodec) (req : InpaintRequest),
      (∃ resp, inpaint_image codec req = Except.ok resp ∧
         inpaint_image_body codec req = Except.ok resp) ∨
      (∃ msg, inpaint_image codec req = Except.error ⟨500, msg⟩ ∧
         inpaint_image_body codec req = Except.error msg)) ∧
    (∀ (codec : ImageCodec) (s : String),
      pyB64Decode (extractB64Payload s) = none →
      ∃ msg, trace_image codec ⟨s⟩ = Except.error ⟨500, msg⟩) ∧
    (∀ (codec : ImageCodec) (bs : List Nat) (s : String),
      pyB64Decode (extractB64Payload s) = some bs →
      codec.open' bs = none →
      ∃ msg, trace_image codec ⟨s⟩ = Except.error ⟨500, msg⟩) := by
  refine ⟨fun req => ⟨_, rfl⟩, fun req => ⟨_, rfl⟩, fun q l => ⟨_, rfl⟩,
    ?_, ?_, ?_, ?_⟩
  · intro codec req
    cases hb : trace_image_body codec req with
    | ok a =>
        exact Or.inl ⟨a, by unfold trace_image runHandler; rw [hb], rfl⟩
    | error msg =>
        exact Or.inr ⟨msg, by unfold trace_image runHandler; rw [hb], rfl⟩
  · intro codec req
    cases hb : inpaint_image_body codec req with
    | ok a =>
        exact Or.inl ⟨a, by unfold inpaint_image runHandler; rw [hb], rfl⟩
    | error msg =>
        exact Or.inr ⟨msg, by unfold inpaint_image runHandler; rw [hb], rfl⟩
  · intro codec s hdec
    refine ⟨"Invalid base64-encoded string", ?_⟩
    have hbody : trace_image_body codec ⟨s⟩ =
        Except.error "Invalid base64-encoded string" := by
      unfold trace_image_body
      simp only [hdec]
    unfold trace_image runHandler
    rw [hbody]
  · intro codec bs s hdec hopen
    refine ⟨"cannot identify image file", ?_⟩
    have hbody : trace_image_body codec ⟨s⟩ =
        Except.error "cannot identify image file" := by
      unfold trace_image_body
      simp only [hdec, hopen]
    unfold trace_image runHandler
    rw [hbody]

/-- Witness for C8: the malformed base64 payload `"A"` makes the trace
handler fail with status 500. -/
theorem handler_error_contract_witness :
    pyB64Decode (extractB64Payload "A") = none ∧
    ∃ msg, trace_image unaryCodec ⟨"A"⟩ = Except.error ⟨500, msg⟩ := by
  refine ⟨by decide, ?_⟩
  exact handler_error_contract.2.2.2.2.2.1 unaryCodec "A" (by decide)

/-- Counterexample to C3 as stated: a request whose image payload decodes and
opens as a valid image but whose mask payload is undecodable base64 fails
with a 500 error instead of returning a PNG data URI — the response is not
independent of the mask contents. -/
theorem inpaint_undecodable_mask_cex :
    pyB64Decode (extractB64Payload "AQE=") = some [1, 1] ∧
    unaryCodec.open' [1, 1] = some ⟨2, 0, []⟩ ∧
    inpaint_image unaryCodec ⟨"AQE=", "A", "p"⟩ =
      Except.error ⟨500, "Invalid base64-encoded string"⟩ ∧
    (∃ resp, inpaint_image unaryCodec ⟨"AQE=", "AAAA", "p"⟩ =
      Except.ok resp) := by
  exact ⟨by decide, by decide, rfl, ⟨⟨"data:image/png;base64,AQEAAA=="⟩, rfl⟩⟩

/-- C3 (amended): for any codec whose PNG round trip preserves dimensions
and emits bytes, every inpaint request whose image payload decodes and opens
and whose mask payload base64-decodes gets a `data:image/png;base64,`-prefixed
response that decodes to an image with the input's dimensions; among such
requests the response is independent of the mask and prompt contents. -/
theorem inpaint_png_roundtrip (codec : ImageCodec)
    (hdims : ∀ i, ∃ j, codec.open' (codec.savePNG i) = some j ∧
      j.width = i.width ∧ j.height = i.height)
    (hbytes : ∀ i, ∀ b ∈ codec.savePNG i, b < 256) :
    (∀ (req : InpaintRequest) (bs ms : List Nat) (img : Img),
      pyB64Decode (extractB64Payload req.image_data) = some bs →
      pyB64Decode (extractB64Payload req.mask_data) = some ms →
      codec.open' bs = some img →
      ∃ resp, inpaint_image codec req = Except.ok resp ∧
        resp.image_data =
          "data:image/png;base64," ++ b64Encode (codec.savePNG img) ∧
        ∃ out j, pyB64Decode (extractB64Payload resp.image_data) = some out ∧
          codec.open' out = some j ∧
          j.width = img.width ∧ j.height = img.height) ∧
    (∀ r1 r2 : InpaintRequest, r1.image_data = r2.image_data →
      (pyB64Decode (extractB64Payload r1.mask_data)).isSome →
      (pyB64Decode (extractB64Payload r2.mask_data)).isSome →
      inpaint_image codec r1 = inpaint_image codec r2) := by
  constructor
  · intro req bs ms img hdec hmask hopen
    have hbody : inpaint_image_body codec req = Except.ok
        ⟨"data:image/png;base64," ++ b64Encode (codec.savePNG img)⟩ := by
      unfold inpaint_image_body
      simp only [hdec, hmask, hopen]
    refine ⟨⟨"data:image/png;base64," ++ b64Encode (codec.savePNG img)⟩,
      ?_, rfl, ?_⟩
    · show inpaint_image codec req = _
      unfold inpaint_image runHandler
      rw [hbody]
    · have hnc : ',' ∉ (b64Encode (codec.savePNG img)).data :=
        b64EncodeList_ne_comma (codec.savePNG img)
      have hsplit : "data:image/png;base64," ++ b64Encode (codec.savePNG img) =
          "data:image/png;base64" ++ "," ++ b64Encode (codec.savePNG img) := rfl
      obtain ⟨j, hj, hjw, hjh⟩ := hdims img
      refine ⟨codec.savePNG img, j, ?_, hj, hjw, hjh⟩
      show pyB64Decode (extractB64Payload
        ("data:image/png;base64," ++ b64Encode (codec.savePNG img))) = _
      rw [hsplit, extract_dataURI "data:image/png;base64" _ (by decide) hnc]
      exact pyB64Decode_b64Encode _ (hbytes img)
  · intro r1 r2 himg hm1 hm2
    obtain ⟨ms1, hms1⟩ := Option.isSome_iff_exists.mp hm1
    obtain ⟨ms2, hms2⟩ := Option.isSome_iff_exists.mp hm2
    unfold inpaint_image runHandler inpaint_image_body
    rw [himg, hms1, hms2]

/-- Witness for C3's amended theorem with the unary codec on a concrete
request: the round trip preserves the 2 x 0 input dimensions. -/
theorem inpaint_png_roundtrip_witness :
    pyB64Decode (extractB64Payload "AQE=") = some [1, 1] ∧
    unaryCodec.open' [1, 1] = some ⟨2, 0, []⟩ ∧
    pyB64Decode (extractB64Payload "AAAA") = some [0, 0, 0] ∧
    ∃ resp, inpaint_image unaryCodec ⟨"AQE=", "AAAA", "p"⟩ = Except.ok resp ∧
      ∃ out j, pyB64Decode (extractB64Payload resp.image_data) = some out ∧
        unaryCodec.open' out = some j ∧ j.width = 2 ∧ j.height = 0 := by
  refine ⟨by decide, by decide, by decide, ?_⟩
  obtain ⟨resp, hok, _, out, j, hdecr, hj, hjw, hjh⟩ :=
    (inpaint_png_roundtrip unaryCodec unaryCodec_dims unaryCodec_bytes).1
      ⟨"AQE=", "AAAA", "p"⟩ [1, 1] [0, 0, 0] ⟨2, 0, []⟩
      (by decide) (by decide) (by decide)
  exact ⟨resp, hok, out, j, hdecr, hj, hjw, hjh⟩

end CanvasAI
